import Mathlib

/-!
Shallow embedding of the three ingestion scripts of `dbt-nuggets-nba`
(`scripts/ingest_boxscores.py`, `scripts/ingest_games.py`,
`scripts/ingest_player_game_logs.py`) and proofs about them.

Tabular payloads (pandas DataFrames) are modelled as a list of column
names together with a list of rows, each row a list of cell values
aligned positionally with the column list.  The remote stats service
is modelled as an oracle `String → FetchOutcome`; the relational sink as
an association list from table names to tables.  The observable side
effects of the per-game run (fetch calls, log lines, the inter-request
sleep, the final sink write) are recorded as an event trace.
-/

set_option autoImplicit false

namespace NbaIngest

/-- A cell value of a tabular payload: a string, an integer, or SQL/pandas
null (`NaN`/`None`).  Dates and floats in real payloads play no role in any
claim and are subsumed by `str`/`int`. -/
inductive Val where
  | str (s : String)
  | int (n : Int)
  | null
  deriving DecidableEq

/-- A pandas DataFrame: named columns plus rows of cells, each row aligned
positionally with `cols`. -/
structure DataFrame where
  cols : List String
  rows : List (List Val)
  deriving DecidableEq

/-- Rectangularity: every row has exactly one cell per column.  Real pandas
DataFrames always satisfy this. -/
def WF (df : DataFrame) : Prop :=
  ∀ r ∈ df.rows, r.length = df.cols.length

/-- Index of the first occurrence of a column name. -/
def idx? (c : String) : List String → Option Nat
  | [] => none
  | x :: xs => if x = c then some 0 else (idx? c xs).map (· + 1)

/-- Value of column `c` in a row laid out against `cols`; a missing column
reads as null (pandas reindexing fills `NaN`). -/
def getCell (cols : List String) (row : List Val) (c : String) : Val :=
  match idx? c cols with
  | some i => row.getD i Val.null
  | none => Val.null

/-- Assignment `df[c] = v` for a scalar `v`: overwrite the column if present, else
append it on the right with the constant value in every row. -/
def setCol (df : DataFrame) (c : String) (v : Val) : DataFrame :=
  match idx? c df.cols with
  | some i => ⟨df.cols, df.rows.map fun r => r.set i v⟩
  | none => ⟨df.cols ++ [c], df.rows.map fun r => r ++ [v]⟩

/-- First value associated to a key in a rename mapping. -/
def lookupStr (c : String) : List (String × String) → Option String
  | [] => none
  | p :: rest => if p.1 = c then some p.2 else lookupStr c rest

/-- Action of `DataFrame.rename(columns=m)` on one column name: renamed if it is a key
of the mapping, untouched otherwise. -/
def renameOne (m : List (String × String)) (c : String) : String :=
  (lookupStr c m).getD c

/-- The rename `df.rename(columns=m)`: column names are mapped, cell data is untouched. -/
def renameCols (df : DataFrame) (m : List (String × String)) : DataFrame :=
  ⟨df.cols.map (renameOne m), df.rows⟩

/-- Our own flat-map on lists, used for traces and concatenations. -/
def flatMapL {α β : Type} (f : α → List β) : List α → List β
  | [] => []
  | a :: l => f a ++ flatMapL f l

/-- One step of the column union: append the names of `cs` not seen yet. -/
def addCols (acc cs : List String) : List String :=
  acc ++ cs.filter fun c => decide (c ∉ acc)

/-- Column set of `pd.concat`: union of the inputs' columns in order of
first appearance. -/
def unionCols (ls : List (List String)) : List String :=
  ls.foldl addCols []

/-- Reindex one row, laid out against `cols`, to the column set `ucols`;
columns the row's frame lacks are filled with null (pandas fills `NaN`). -/
def reindexRow (ucols cols : List String) (r : List Val) : List Val :=
  ucols.map (getCell cols r)

/-- Concatenation `pd.concat(dfs, ignore_index=True)`: union of the columns, every row
reindexed to that union, rows in input order. -/
def concatDFs (ds : List DataFrame) : DataFrame :=
  let ucols := unionCols (ds.map DataFrame.cols)
  ⟨ucols, flatMapL (fun d => d.rows.map (reindexRow ucols d.cols)) ds⟩

/-! ### The relational sink -/

/-- The sink database: an association list from table names to tables;
`setTable` shadows any previous binding. -/
abbrev Database := List (String × DataFrame)

/-- Install `df` as the complete new contents of table `tbl`. -/
def setTable (db : Database) (tbl : String) (df : DataFrame) : Database :=
  (tbl, df) :: db

/-- Current contents of table `tbl`, if it exists. -/
def getTable : Database → String → Option DataFrame
  | [], _ => none
  | p :: rest, tbl => if p.1 = tbl then some p.2 else getTable rest tbl

/-- The `if_exists` modes of `pandas.DataFrame.to_sql` used or available to
these scripts. -/
inductive IfExists where
  | replace
  | append
  deriving DecidableEq

/-- Semantics of `df.to_sql(tbl, conn, if_exists=mode, index=False)`: `replace` installs
`df` as the table's full new contents regardless of what was there;
`append` concatenates onto the existing contents. -/
def toSql (db : Database) (tbl : String) (mode : IfExists) (df : DataFrame) :
    Database :=
  match mode with
  | .replace => setTable db tbl df
  | .append =>
    match getTable db tbl with
    | some old => setTable db tbl (concatDFs [old, df])
    | none => setTable db tbl df

/-! ### `scripts/ingest_boxscores.py` -/

/-- Outcome of one `BoxScoreTraditionalV3(game_id=...)` call followed by
`get_data_frames()`: either the call raises (any exception), or it returns
a list of tabular result sets. -/
inductive FetchOutcome where
  | failure
  | success (dfs : List DataFrame)
  deriving DecidableEq

/-- Upstream table name the per-game pipeline reads game ids from. -/
def RAW_GAMES_TABLE : String := "raw_nba_games"

/-- Destination table of the per-game pipeline. -/
def RAW_BOXSCORES_TABLE : String := "raw_nba_boxscores"

/-- Lexicographic comparison of character lists by code point; an
executable rendering of the string order (proved equivalent to `≤` on
`String` below). -/
def lexLE : List Char → List Char → Bool
  | [], _ => true
  | _ :: _, [] => false
  | a :: as, b :: bs =>
    if a < b then true else if b < a then false else lexLE as bs

/-- Computable `≤` on strings. -/
def strLE (a b : String) : Bool := lexLE a.data b.data

/-- Semantics of `SELECT DISTINCT game_id FROM public.raw_nba_games ORDER BY
game_id` evaluated by the sink over the upstream table's `game_id` column:
the distinct identifiers in ascending order. -/
def loadGameIds (upstream : List String) : List String :=
  List.insertionSort (fun a b => strLE a b = true) upstream.dedup

/-- Body of one loop iteration up to the accumulator: a failed fetch or an
empty result-set list contributes nothing; otherwise the first result set
is taken and `GAME_ID` is attached when (and only when) absent. -/
def processItem (gid : String) : FetchOutcome → Option DataFrame
  | .failure => none
  | .success [] => none
  | .success (d :: _) =>
    some (if "GAME_ID" ∈ d.cols then d else setCol d "GAME_ID" (Val.str gid))

/-- Observable side effects of the per-game run. -/
inductive Event where
  | fetchCall (gid : String)
  | errorLog (gid : String)
  | warnLog (gid : String)
  | sleep
  | printNoData
  | sinkWrite (df : DataFrame)
  deriving DecidableEq

/-- Effects of one loop iteration: the fetch always happens; a raised fetch
prints the error line and `continue`s (skipping the sleep); an empty
result-set list prints the warning line and `continue`s (also skipping the
sleep); only an iteration that appends a payload reaches `time.sleep(0.6)`. -/
def iterEvents (gid : String) : FetchOutcome → List Event
  | .failure => [Event.fetchCall gid, Event.errorLog gid]
  | .success [] => [Event.fetchCall gid, Event.warnLog gid]
  | .success (_ :: _) => [Event.fetchCall gid, Event.sleep]

/-- The accumulator `all_rows` at the end of the loop. -/
def accumulated (items : List String) (fetch : String → FetchOutcome) :
    List DataFrame :=
  items.filterMap fun g => processItem g (fetch g)

/-- The one rename the per-game pipeline performs. -/
def boxRenameMap : List (String × String) := [("GAME_ID", "game_id")]

/-- Steps 3–4 of the script: concatenate the accumulated payloads and rename
`GAME_ID` to `game_id` when that column is present. -/
def finalDf (allRows : List DataFrame) : DataFrame :=
  let full := concatDFs allRows
  if "GAME_ID" ∈ full.cols then renameCols full boxRenameMap else full

/-- Result of `main` after the loop: `none` when `all_rows` is empty (the
early-return branch), otherwise the DataFrame handed to `to_sql`. -/
def runPipeline (items : List String) (fetch : String → FetchOutcome) :
    Option DataFrame :=
  if (accumulated items fetch).isEmpty then none
  else some (finalDf (accumulated items fetch))

/-- Full event trace of `main` over a given WorkItem list. -/
def runTrace (items : List String) (fetch : String → FetchOutcome) :
    List Event :=
  flatMapL (fun g => iterEvents g (fetch g)) items ++
    match runPipeline items fetch with
    | none => [Event.printNoData]
    | some full => [Event.sinkWrite full]

/-- The function `main` including the sink write: on the early-return branch the database
is untouched; otherwise the final DataFrame replace-writes the destination
table. -/
def runWithSink (db : Database) (items : List String)
    (fetch : String → FetchOutcome) : Database :=
  match runPipeline items fetch with
  | none => db
  | some full => toSql db RAW_BOXSCORES_TABLE IfExists.replace full

/-! ### `scripts/ingest_games.py` -/

/-- The hardcoded season constant shared by the two season-scoped scripts. -/
def SEASON : String := "2023-24"

/-- Rename mapping of `ingest_games.py`. -/
def gamesRenameMap : List (String × String) :=
  [("Game_ID", "game_id"), ("GAME_DATE", "game_date"),
   ("MATCHUP", "matchup"), ("WL", "win_loss"), ("PTS", "team_points")]

/-- The DataFrame `df_clean` of `ingest_games.py`: rename, then `df_clean["season"] = SEASON`. -/
def transformGames (df : DataFrame) : DataFrame :=
  setCol (renameCols df gamesRenameMap) "season" (Val.str SEASON)

/-- Destination table of `ingest_games.py`. -/
def GAMES_TABLE : String := "raw_nba_games"

/-- The whole of `ingest_games.py` after the fetch has returned `df`. -/
def gamesMain (db : Database) (df : DataFrame) : Database :=
  toSql db GAMES_TABLE IfExists.replace (transformGames df)

/-! ### `scripts/ingest_player_game_logs.py` -/

/-- Rename mapping of `ingest_player_game_logs.py`. -/
def playerLogsRenameMap : List (String × String) :=
  [("Player_ID", "player_id"), ("Player_Name", "player_name"),
   ("Team_ID", "team_id"), ("Team_Name", "team_name"),
   ("Game_ID", "game_id")]

/-- The DataFrame `df_clean` of `ingest_player_game_logs.py`: the rename alone — no other
column is added. -/
def transformPlayerLogs (df : DataFrame) : DataFrame :=
  renameCols df playerLogsRenameMap

/-- Destination table of `ingest_player_game_logs.py`. -/
def PLAYER_LOGS_TABLE : String := "raw_nba_player_game_logs"

/-- The whole of `ingest_player_game_logs.py` after the fetch returned `df`. -/
def playerLogsMain (db : Database) (df : DataFrame) : Database :=
  toSql db PLAYER_LOGS_TABLE IfExists.replace (transformPlayerLogs df)

/-! ### Derived observers -/

/-- Number of rows of the first result set of a fetch outcome; `0` for a
failed fetch or an empty result-set list. -/
def firstRowCount : FetchOutcome → Nat
  | .success (d :: _) => d.rows.length
  | _ => 0

/-- Record count of the optionally written DataFrame (`0` when the run
takes the early-return branch and writes nothing). -/
def recordCount : Option DataFrame → Nat
  | none => 0
  | some df => df.rows.length

/-- Total number of records held by the accumulator. -/
def accumulatedCount (items : List String)
    (fetch : String → FetchOutcome) : Nat :=
  ((accumulated items fetch).map fun d => d.rows.length).sum

/-- The `game_id` column of the optionally written DataFrame, as the list of
its cell values in row order. -/
def gameIdValues : Option DataFrame → List Val
  | none => []
  | some full => full.rows.map fun r => getCell full.cols r "game_id"

/-- Expected `game_id` contribution of one WorkItem to the written dataset:
nothing for a failed fetch or an empty result-set list; the source
`GAME_ID` values when the first result set carries that column; the
WorkItem identifier for every row otherwise. -/
def expectedOutcome (g : String) : FetchOutcome → List Val
  | .failure => []
  | .success [] => []
  | .success (d :: _) =>
    if "GAME_ID" ∈ d.cols then d.rows.map fun r => getCell d.cols r "GAME_ID"
    else d.rows.map fun _ => Val.str g

/-- The fetch calls recorded in a trace, in order. -/
def fetchCalls (tr : List Event) : List String :=
  tr.filterMap fun e =>
    match e with
    | Event.fetchCall g => some g
    | _ => none

/-- Whether an event is the sink write. -/
def isSinkWrite : Event → Bool
  | Event.sinkWrite _ => true
  | _ => false

/-! ### Concrete inputs used by counterexamples and witnesses -/

/-- A fetch whose single result set has columns but no rows. -/
def c1cFetch : String → FetchOutcome :=
  fun _ => FetchOutcome.success [⟨["PTS"], []⟩]

/-- A fetch that always raises. -/
def c1wFetch : String → FetchOutcome := fun _ => FetchOutcome.failure

/-- A fetch whose payload includes `GAME_ID` with a null value. -/
def c3cFetch : String → FetchOutcome :=
  fun _ => FetchOutcome.success [⟨["GAME_ID", "PTS"], [[Val.null, Val.int 3]]⟩]

/-- A fetch whose payload lacks `GAME_ID`. -/
def c3wFetch : String → FetchOutcome :=
  fun _ => FetchOutcome.success [⟨["PTS"], [[Val.int 7]]⟩]

/-- A fetch with one single-row result set. -/
def c4wFetch : String → FetchOutcome :=
  fun _ => FetchOutcome.success [⟨["PTS"], [[Val.int 30]]⟩]

/-- A well-formed season-scoped payload for the player-logs script. -/
def c5cDf : DataFrame :=
  ⟨["Game_ID", "PTS"], [[Val.str "0022300001", Val.int 120]]⟩

/-- A well-formed payload for the games script. -/
def c5wDf : DataFrame :=
  ⟨["Game_ID", "GAME_DATE"], [[Val.str "0022300001", Val.str "2023-10-24"]]⟩

/-- A fetch that always raises. -/
def c6cFetch : String → FetchOutcome := fun _ => FetchOutcome.failure

/-- An upstream `game_id` column with a duplicate, out of order. -/
def c7wUpstream : List String := ["0022300002", "0022300001", "0022300002"]

/-- A fetch with one single-row result set. -/
def c7wFetch : String → FetchOutcome :=
  fun _ => FetchOutcome.success [⟨["PTS"], [[Val.int 11]]⟩]

/-- Two WorkItems: the first payload carries `GAME_ID` (with a null), the
second lacks it. -/
def c9wItems : List String := ["0022300001", "0022300002"]

/-- Fetch oracle for `c9wItems`. -/
def c9wFetch : String → FetchOutcome := fun g =>
  if g = "0022300001" then
    FetchOutcome.success [⟨["GAME_ID", "PTS"], [[Val.null, Val.int 3]]⟩]
  else FetchOutcome.success [⟨["PTS"], [[Val.int 7]]⟩]

/-- A fetch that returns no result sets for the WorkItem `"empty"` and a
single-row result set for every other item. -/
def c10wFetch : String → FetchOutcome := fun g =>
  if g = "empty" then FetchOutcome.success []
  else FetchOutcome.success [⟨["PTS"], [[Val.int 5]]⟩]

/-! ## Basic lemmas about the list-level operations -/

theorem idx?_eq_none {c : String} {l : List String} :
    idx? c l = none ↔ c ∉ l := by
  induction l with
  | nil => simp [idx?]
  | cons x xs ih =>
    by_cases hx : x = c
    · subst hx; simp [idx?]
    · rw [idx?, if_neg hx, Option.map_eq_none', ih]
      constructor
      · intro h hc
        rcases List.mem_cons.1 hc with hc | hc
        · exact hx hc.symm
        · exact h hc
      · intro h hc
        exact h (List.mem_cons_of_mem x hc)

theorem idx?_lt_length {c : String} {l : List String} {i : Nat}
    (h : idx? c l = some i) : i < l.length := by
  induction l generalizing i with
  | nil => simp [idx?] at h
  | cons x xs ih =>
    rw [idx?] at h
    by_cases hx : x = c
    · rw [if_pos hx] at h
      cases h
      simp
    · rw [if_neg hx, Option.map_eq_some'] at h
      obtain ⟨j, hj, rfl⟩ := h
      have := ih hj
      simp only [List.length_cons]
      omega

theorem idx?_getD {c : String} {l : List String} {i : Nat}
    (h : idx? c l = some i) (d : String) : l.getD i d = c := by
  induction l generalizing i with
  | nil => simp [idx?] at h
  | cons x xs ih =>
    rw [idx?] at h
    by_cases hx : x = c
    · rw [if_pos hx] at h
      cases h
      simpa using hx
    · rw [if_neg hx, Option.map_eq_some'] at h
      obtain ⟨j, hj, rfl⟩ := h
      simpa using ih hj

theorem idx?_mem {c : String} {l : List String} {i : Nat}
    (h : idx? c l = some i) : c ∈ l := by
  by_contra hc
  rw [← idx?_eq_none] at hc
  rw [hc] at h
  cases h

theorem idx?_append_self {c : String} {l : List String} (h : c ∉ l) :
    idx? c (l ++ [c]) = some l.length := by
  induction l with
  | nil => simp [idx?]
  | cons x xs ih =>
    have hx : x ≠ c := fun hh => h (hh ▸ List.mem_cons_self x xs)
    have hxs : c ∉ xs := fun hh => h (List.mem_cons_of_mem x hh)
    simp [idx?, hx, ih hxs]

theorem getD_map_of_lt {α β : Type} (f : α → β) {l : List α} {i : Nat}
    (h : i < l.length) (d₁ : β) (d₂ : α) :
    (l.map f).getD i d₁ = f (l.getD i d₂) := by
  induction l generalizing i with
  | nil => simp at h
  | cons x xs ih =>
    cases i with
    | zero => rfl
    | succ j =>
      simp only [List.length_cons, Nat.add_lt_add_iff_right] at h
      simpa using ih (by omega)

theorem getD_set_self {α : Type} {l : List α} {i : Nat}
    (h : i < l.length) (a d : α) : (l.set i a).getD i d = a := by
  induction l generalizing i with
  | nil => simp at h
  | cons x xs ih =>
    cases i with
    | zero => rfl
    | succ j =>
      simp only [List.length_cons, Nat.add_lt_add_iff_right] at h
      simpa using ih h

theorem getD_append_length {α : Type} (l : List α) (v d : α) :
    (l ++ [v]).getD l.length d = v := by
  induction l with
  | nil => rfl
  | cons x xs ih => simp [ih]

theorem mem_foldl_addCols {c : String} {ls : List (List String)} :
    ∀ {acc : List String},
      c ∈ ls.foldl addCols acc ↔ c ∈ acc ∨ ∃ cs ∈ ls, c ∈ cs := by
  induction ls with
  | nil => intro acc; simp
  | cons cs rest ih =>
    intro acc
    rw [List.foldl_cons, ih]
    constructor
    · rintro (hacc | ⟨cs', hcs', hc⟩)
      · rcases List.mem_append.1 hacc with h | h
        · exact Or.inl h
        · exact Or.inr ⟨cs, List.mem_cons_self cs rest, (List.mem_filter.1 h).1⟩
      · exact Or.inr ⟨cs', List.mem_cons_of_mem cs hcs', hc⟩
    · rintro (hacc | ⟨cs', hcs', hc⟩)
      · exact Or.inl (List.mem_append.2 (Or.inl hacc))
      · rcases List.mem_cons.1 hcs' with rfl | hcs'
        · by_cases hin : c ∈ acc
          · exact Or.inl (List.mem_append.2 (Or.inl hin))
          · exact Or.inl (List.mem_append.2 (Or.inr
              (List.mem_filter.2 ⟨hc, by simpa using hin⟩)))
        · exact Or.inr ⟨cs', hcs', hc⟩

theorem mem_unionCols {c : String} {ls : List (List String)} :
    c ∈ unionCols ls ↔ ∃ cs ∈ ls, c ∈ cs := by
  rw [unionCols, mem_foldl_addCols]
  simp

theorem flatMapL_append {α β : Type} (f : α → List β) (l₁ l₂ : List α) :
    flatMapL f (l₁ ++ l₂) = flatMapL f l₁ ++ flatMapL f l₂ := by
  induction l₁ with
  | nil => rfl
  | cons a l ih => simp [flatMapL, ih]

theorem length_flatMapL {α β : Type} (f : α → List β) (l : List α) :
    (flatMapL f l).length = (l.map fun a => (f a).length).sum := by
  induction l with
  | nil => rfl
  | cons a l ih => simp [flatMapL, ih]

theorem map_flatMapL {α β γ : Type} (g : β → γ) (f : α → List β)
    (l : List α) :
    (flatMapL f l).map g = flatMapL (fun a => (f a).map g) l := by
  induction l with
  | nil => rfl
  | cons a l ih => simp [flatMapL, ih]

theorem mem_flatMapL {α β : Type} {b : β} {f : α → List β} {l : List α} :
    b ∈ flatMapL f l ↔ ∃ a ∈ l, b ∈ f a := by
  induction l with
  | nil => simp [flatMapL]
  | cons a l ih => simp [flatMapL, ih, List.mem_append]

theorem flatMapL_congr {α β : Type} {f g : α → List β} {l : List α}
    (h : ∀ a ∈ l, f a = g a) : flatMapL f l = flatMapL g l := by
  induction l with
  | nil => rfl
  | cons a l ih =>
    simp only [flatMapL, h a (List.mem_cons_self a l)]
    rw [ih fun a ha => h a (List.mem_cons_of_mem _ ha)]

theorem flatMapL_eq_nil {α β : Type} {f : α → List β} {l : List α}
    (h : ∀ a ∈ l, f a = []) : flatMapL f l = [] := by
  induction l with
  | nil => rfl
  | cons a l ih =>
    simp only [flatMapL, h a (List.mem_cons_self a l), List.nil_append]
    exact ih fun a ha => h a (List.mem_cons_of_mem _ ha)

theorem flatMapL_filterMap {α β γ : Type} (p : α → Option γ)
    (F : γ → List β) (l : List α) :
    flatMapL F (l.filterMap p) =
      flatMapL (fun a => ((p a).map F).getD []) l := by
  induction l with
  | nil => rfl
  | cons a l ih =>
    cases h : p a with
    | none => simp [List.filterMap_cons, h, flatMapL, ih]
    | some c => simp [List.filterMap_cons, h, flatMapL, ih]

/-! ## Lemmas about the DataFrame operations -/

theorem setCol_rows_length (df : DataFrame) (c : String) (v : Val) :
    (setCol df c v).rows.length = df.rows.length := by
  unfold setCol
  cases idx? c df.cols <;> simp

theorem mem_setCol_cols (df : DataFrame) (c : String) (v : Val) :
    c ∈ (setCol df c v).cols := by
  unfold setCol
  cases h : idx? c df.cols with
  | some i => exact idx?_mem h
  | none => simp

theorem mem_setCol_cols_iff (df : DataFrame) (c x : String) (v : Val) :
    x ∈ (setCol df c v).cols ↔ x ∈ df.cols ∨ x = c := by
  unfold setCol
  cases h : idx? c df.cols with
  | some i =>
    simp only
    constructor
    · exact fun hx => Or.inl hx
    · rintro (hx | rfl)
      · exact hx
      · exact idx?_mem h
  | none => simp

theorem WF_setCol {df : DataFrame} (h : WF df) (c : String) (v : Val) :
    WF (setCol df c v) := by
  unfold WF setCol
  cases hidx : idx? c df.cols with
  | some i =>
    intro r hr
    rcases List.mem_map.1 hr with ⟨r₀, hr₀, rfl⟩
    simp [h r₀ hr₀]
  | none =>
    intro r hr
    rcases List.mem_map.1 hr with ⟨r₀, hr₀, rfl⟩
    simp [h r₀ hr₀]

theorem WF_renameCols {df : DataFrame} (h : WF df)
    (m : List (String × String)) : WF (renameCols df m) := by
  unfold WF renameCols
  intro r hr
  simpa using h r hr

theorem getCell_setCol {df : DataFrame} (h : WF df) (c : String) (v : Val) :
    ∀ r' ∈ (setCol df c v).rows, getCell (setCol df c v).cols r' c = v := by
  intro r' hr'
  cases hidx : idx? c df.cols with
  | some i =>
    simp only [setCol, hidx] at hr' ⊢
    rcases List.mem_map.1 hr' with ⟨r, hr, rfl⟩
    have hlen : r.length = df.cols.length := h r hr
    have hi : i < df.cols.length := idx?_lt_length hidx
    rw [getCell, hidx]
    exact getD_set_self (by omega) v Val.null
  | none =>
    simp only [setCol, hidx] at hr' ⊢
    rcases List.mem_map.1 hr' with ⟨r, hr, rfl⟩
    have hlen : r.length = df.cols.length := h r hr
    have hap : idx? c (df.cols ++ [c]) = some df.cols.length :=
      idx?_append_self (idx?_eq_none.mp hidx)
    rw [getCell, hap, ← hlen]
    exact getD_append_length r v Val.null

theorem lookupStr_mem {c v : String} :
    ∀ {m : List (String × String)}, lookupStr c m = some v → (c, v) ∈ m := by
  intro m
  induction m with
  | nil => intro h; cases h
  | cons p rest ih =>
    intro h
    rw [lookupStr] at h
    by_cases hp : p.1 = c
    · rw [if_pos hp] at h
      cases h
      have hpp : (c, p.2) = p := by rw [← hp]
      rw [hpp]
      exact List.mem_cons_self p rest
    · rw [if_neg hp] at h
      exact List.mem_cons_of_mem p (ih h)

theorem renameOne_idem {m : List (String × String)}
    (hm : ∀ p ∈ m, lookupStr p.2 m = none) (c : String) :
    renameOne m (renameOne m c) = renameOne m c := by
  unfold renameOne
  cases h : lookupStr c m with
  | none => simp [h]
  | some v =>
    have hv := hm (c, v) (lookupStr_mem h)
    simp [h, hv]

theorem renameCols_idem {m : List (String × String)}
    (hm : ∀ p ∈ m, lookupStr p.2 m = none) (df : DataFrame) :
    renameCols (renameCols df m) m = renameCols df m := by
  simp only [renameCols, List.map_map, DataFrame.mk.injEq, and_true]
  exact List.map_congr_left fun c _ => renameOne_idem hm c

theorem renameOne_box (c : String) :
    renameOne boxRenameMap c = if c = "GAME_ID" then "game_id" else c := by
  by_cases h : c = "GAME_ID"
  · subst h; rfl
  · rw [if_neg h]
    have h' : ¬("GAME_ID" : String) = c := fun hh => h hh.symm
    simp [renameOne, boxRenameMap, lookupStr, h']

theorem idx?_rename_gameId {l : List String} (h : "game_id" ∉ l) :
    idx? "game_id" (l.map (renameOne boxRenameMap)) = idx? "GAME_ID" l := by
  induction l with
  | nil => rfl
  | cons x xs ih =>
    have hx : x ≠ "game_id" := fun hh => h (hh ▸ List.mem_cons_self x xs)
    have hxs : "game_id" ∉ xs := fun hh => h (List.mem_cons_of_mem x hh)
    by_cases hg : x = "GAME_ID"
    · subst hg
      simp [idx?, renameOne_box]
    · have hr : renameOne boxRenameMap x = x := by rw [renameOne_box, if_neg hg]
      simp only [List.map_cons, hr, idx?, if_neg hx, if_neg hg, ih hxs]

theorem getCell_reindex_rename {ucols cols : List String} {r : List Val}
    (hnl : "game_id" ∉ ucols) (hmem : "GAME_ID" ∈ ucols) :
    getCell (ucols.map (renameOne boxRenameMap)) (reindexRow ucols cols r)
      "game_id" = getCell cols r "GAME_ID" := by
  obtain ⟨i, hi⟩ : ∃ i, idx? "GAME_ID" ucols = some i := by
    cases h : idx? "GAME_ID" ucols with
    | none => exact absurd hmem (idx?_eq_none.mp h)
    | some i => exact ⟨i, rfl⟩
  have hidx : idx? "game_id" (ucols.map (renameOne boxRenameMap)) = some i :=
    (idx?_rename_gameId hnl).trans hi
  have hlt : i < ucols.length := idx?_lt_length hi
  rw [getCell, hidx]
  show (reindexRow ucols cols r).getD i Val.null = getCell cols r "GAME_ID"
  rw [reindexRow, getD_map_of_lt (getCell cols r) hlt Val.null "GAME_ID",
    idx?_getD hi "GAME_ID"]

theorem lexLE_iff : ∀ l₁ l₂ : List Char,
    lexLE l₁ l₂ = true ↔ ¬ List.Lex (fun x y => x < y) l₂ l₁ := by
  intro l₁
  induction l₁ with
  | nil =>
    intro l₂
    simp only [lexLE]
    constructor
    · intro _ h
      cases h
    · intro _
      trivial
  | cons a as ih =>
    intro l₂
    cases l₂ with
    | nil =>
      simp only [lexLE]
      constructor
      · intro h
        cases h
      · intro h
        exact absurd List.Lex.nil h
    | cons b bs =>
      by_cases hab : a < b
      · rw [lexLE, if_pos hab]
        constructor
        · intro _ h
          cases h with
          | rel h' => exact lt_asymm hab h'
          | cons h' => exact lt_irrefl a hab
        · intro _
          rfl
      · by_cases hba : b < a
        · rw [lexLE, if_neg hab, if_pos hba]
          constructor
          · intro h
            cases h
          · intro h
            exact absurd (List.Lex.rel hba) h
        · rw [lexLE, if_neg hab, if_neg hba, ih bs]
          constructor
          · intro h hc
            cases hc with
            | rel h' => exact hba h'
            | cons h' => exact h h'
          · intro h hc
            have hba' : b = a :=
              le_antisymm (le_of_not_lt hab) (le_of_not_lt hba)
            subst hba'
            exact h (List.Lex.cons hc)

theorem strLE_iff (a b : String) : strLE a b = true ↔ a ≤ b := by
  show _ ↔ ¬ b < a
  rw [String.lt_iff_toList_lt]
  exact lexLE_iff a.data b.data

/-! ## Lemmas about the per-game pipeline -/

theorem processItem_eq_none_iff {g : String} {o : FetchOutcome} :
    processItem g o = none ↔
      o = FetchOutcome.failure ∨ o = FetchOutcome.success [] := by
  cases o with
  | failure => simp [processItem]
  | success dfs => cases dfs <;> simp [processItem]

theorem processItem_rows_length {g : String} {o : FetchOutcome}
    {d' : DataFrame} (h : processItem g o = some d') :
    d'.rows.length = firstRowCount o := by
  cases o with
  | failure => cases h
  | success dfs =>
    cases dfs with
    | nil => cases h
    | cons d rest =>
      simp only [processItem, Option.some.injEq] at h
      subst h
      by_cases hg : "GAME_ID" ∈ d.cols
      · rw [if_pos hg]; rfl
      · rw [if_neg hg, setCol_rows_length]; rfl

theorem processItem_gameId {g : String} {o : FetchOutcome} {d' : DataFrame}
    (h : processItem g o = some d') : "GAME_ID" ∈ d'.cols := by
  cases o with
  | failure => cases h
  | success dfs =>
    cases dfs with
    | nil => cases h
    | cons d rest =>
      simp only [processItem, Option.some.injEq] at h
      subst h
      by_cases hg : "GAME_ID" ∈ d.cols
      · rwa [if_pos hg]
      · rw [if_neg hg]; exact mem_setCol_cols d "GAME_ID" (Val.str g)

theorem processItem_no_lower {g : String} {o : FetchOutcome} {d' : DataFrame}
    (h : processItem g o = some d')
    (hsrc : ∀ d rest, o = FetchOutcome.success (d :: rest) →
      "game_id" ∉ d.cols) :
    "game_id" ∉ d'.cols := by
  cases o with
  | failure => cases h
  | success dfs =>
    cases dfs with
    | nil => cases h
    | cons d rest =>
      simp only [processItem, Option.some.injEq] at h
      subst h
      have hd := hsrc d rest rfl
      by_cases hg : "GAME_ID" ∈ d.cols
      · rwa [if_pos hg]
      · rw [if_neg hg]
        intro hmem
        rcases (mem_setCol_cols_iff d "GAME_ID" "game_id" (Val.str g)).1 hmem
          with hin | heq
        · exact hd hin
        · exact absurd heq (by decide)

theorem processItem_gameId_vals {g : String} {o : FetchOutcome}
    {d' : DataFrame} (h : processItem g o = some d')
    (hwf : ∀ d rest, o = FetchOutcome.success (d :: rest) → WF d) :
    d'.rows.map (fun r => getCell d'.cols r "GAME_ID") = expectedOutcome g o := by
  cases o with
  | failure => cases h
  | success dfs =>
    cases dfs with
    | nil => cases h
    | cons d rest =>
      have hwfd : WF d := hwf d rest rfl
      simp only [processItem, Option.some.injEq] at h
      subst h
      by_cases hg : "GAME_ID" ∈ d.cols
      · rw [if_pos hg]
        show _ = expectedOutcome g (FetchOutcome.success (d :: rest))
        rw [expectedOutcome, if_pos hg]
      · rw [if_neg hg]
        show _ = expectedOutcome g (FetchOutcome.success (d :: rest))
        rw [expectedOutcome, if_neg hg]
        have hidx : idx? "GAME_ID" d.cols = none := idx?_eq_none.mpr hg
        simp only [setCol, hidx, List.map_map]
        apply List.map_congr_left
        intro r hr
        show getCell (d.cols ++ ["GAME_ID"]) (r ++ [Val.str g]) "GAME_ID"
          = Val.str g
        have hlen := hwfd r hr
        have hap : idx? "GAME_ID" (d.cols ++ ["GAME_ID"])
            = some d.cols.length := idx?_append_self hg
        rw [getCell, hap, ← hlen]
        exact getD_append_length r (Val.str g) Val.null

theorem processItem_none_expected {g : String} {o : FetchOutcome}
    (h : processItem g o = none) : expectedOutcome g o = [] := by
  rcases processItem_eq_none_iff.1 h with rfl | rfl <;> rfl

theorem accumulatedCount_eq (items : List String)
    (fetch : String → FetchOutcome) :
    accumulatedCount items fetch
      = (items.map fun g => firstRowCount (fetch g)).sum := by
  induction items with
  | nil => rfl
  | cons g gs ih =>
    cases h : processItem g (fetch g) with
    | none =>
      have h0 : firstRowCount (fetch g) = 0 := by
        rcases processItem_eq_none_iff.1 h with hf | hf <;> rw [hf] <;> rfl
      simp only [accumulatedCount, accumulated, List.filterMap_cons, h,
        List.map_cons, List.sum_cons, h0, Nat.zero_add]
      exact ih
    | some d' =>
      have ih' := ih
      simp only [accumulatedCount, accumulated] at ih'
      simp only [accumulatedCount, accumulated, List.filterMap_cons, h,
        List.map_cons, List.sum_cons, processItem_rows_length h, ih']

theorem concatDFs_rows_length (ds : List DataFrame) :
    (concatDFs ds).rows.length = (ds.map fun d => d.rows.length).sum := by
  show (flatMapL (fun d => d.rows.map
      (reindexRow (unionCols (ds.map DataFrame.cols)) d.cols)) ds).length = _
  rw [length_flatMapL]
  congr 1
  apply List.map_congr_left
  intro d _
  simp

theorem finalDf_rows (allRows : List DataFrame) :
    (finalDf allRows).rows = (concatDFs allRows).rows := by
  rw [finalDf]
  split <;> rfl

theorem runPipeline_eq_none_iff {items : List String}
    {fetch : String → FetchOutcome} :
    runPipeline items fetch = none ↔ accumulated items fetch = [] := by
  rw [runPipeline]
  by_cases h : (accumulated items fetch).isEmpty
  · rw [if_pos h]
    simp [List.isEmpty_iff.mp h]
  · rw [if_neg h]
    rw [List.isEmpty_iff] at h
    simp [h]

theorem runPipeline_eq_some {items : List String}
    {fetch : String → FetchOutcome} {full : DataFrame}
    (h : runPipeline items fetch = some full) :
    full = finalDf (accumulated items fetch)
      ∧ accumulated items fetch ≠ [] := by
  rw [runPipeline] at h
  by_cases he : (accumulated items fetch).isEmpty
  · rw [if_pos he] at h
    cases h
  · rw [if_neg he] at h
    cases h
    rw [List.isEmpty_iff] at he
    exact ⟨rfl, he⟩

theorem getTable_setTable (db : Database) (tbl : String) (df : DataFrame) :
    getTable (setTable db tbl df) tbl = some df := by
  simp [setTable, getTable]

theorem fetchCalls_append (t₁ t₂ : List Event) :
    fetchCalls (t₁ ++ t₂) = fetchCalls t₁ ++ fetchCalls t₂ := by
  simp [fetchCalls, List.filterMap_append]

theorem fetchCalls_iterEvents (g : String) (o : FetchOutcome) :
    fetchCalls (iterEvents g o) = [g] := by
  cases o with
  | failure => rfl
  | success dfs => cases dfs <;> rfl

theorem fetchCalls_flatMap (items : List String)
    (fetch : String → FetchOutcome) :
    fetchCalls (flatMapL (fun g => iterEvents g (fetch g)) items) = items := by
  induction items with
  | nil => rfl
  | cons g gs ih =>
    rw [flatMapL, fetchCalls_append, fetchCalls_iterEvents, ih]
    rfl

theorem sinkWrite_not_mem_iterEvents (g : String) (o : FetchOutcome)
    (df : DataFrame) : Event.sinkWrite df ∉ iterEvents g o := by
  cases o with
  | failure => simp [iterEvents]
  | success dfs => cases dfs <;> simp [iterEvents]

theorem runPipeline_mem_gameId {items : List String}
    {fetch : String → FetchOutcome} {full : DataFrame}
    (h : runPipeline items fetch = some full) : "game_id" ∈ full.cols := by
  obtain ⟨rfl, hne⟩ := runPipeline_eq_some h
  have hall : ∀ d' ∈ accumulated items fetch, "GAME_ID" ∈ d'.cols := by
    intro d' hd'
    rcases List.mem_filterMap.1 hd' with ⟨g, hg, hpg⟩
    exact processItem_gameId hpg
  obtain ⟨d', hd'⟩ := List.exists_mem_of_ne_nil _ hne
  have hGIDu : "GAME_ID"
      ∈ unionCols ((accumulated items fetch).map DataFrame.cols) :=
    mem_unionCols.mpr ⟨d'.cols, List.mem_map_of_mem _ hd', hall d' hd'⟩
  have hGIDc : "GAME_ID" ∈ (concatDFs (accumulated items fetch)).cols := hGIDu
  rw [finalDf, if_pos hGIDc]
  show "game_id" ∈ (unionCols
    ((accumulated items fetch).map DataFrame.cols)).map (renameOne boxRenameMap)
  exact List.mem_map.2 ⟨"GAME_ID", hGIDu, by rw [renameOne_box, if_pos rfl]⟩

/-- The `game_id` column of the written dataset, characterized item by item:
failed fetches and empty result-set lists contribute nothing; a payload that
carried `GAME_ID` contributes its original values (nulls included); a
payload that lacked it contributes the WorkItem identifier on every row. -/
theorem gameId_column_char (items : List String)
    (fetch : String → FetchOutcome)
    (hwf : ∀ g ∈ items, ∀ d rest,
      fetch g = FetchOutcome.success (d :: rest) →
        WF d ∧ "game_id" ∉ d.cols) :
    gameIdValues (runPipeline items fetch)
      = flatMapL (fun g => expectedOutcome g (fetch g)) items := by
  by_cases hemp : accumulated items fetch = []
  · rw [runPipeline_eq_none_iff.mpr hemp]
    show [] = _
    symm
    apply flatMapL_eq_nil
    intro g hg
    exact processItem_none_expected (List.filterMap_eq_nil_iff.1 hemp g hg)
  · have hrp : runPipeline items fetch
        = some (finalDf (accumulated items fetch)) := by
      rw [runPipeline, if_neg (by simpa [List.isEmpty_iff] using hemp)]
    rw [hrp]
    have hmemA : ∀ d' ∈ accumulated items fetch,
        "GAME_ID" ∈ d'.cols ∧ "game_id" ∉ d'.cols := by
      intro d' hd'
      rcases List.mem_filterMap.1 hd' with ⟨g, hg, hpg⟩
      exact ⟨processItem_gameId hpg,
        processItem_no_lower hpg fun d rest ho => (hwf g hg d rest ho).2⟩
    have hGIDu : "GAME_ID"
        ∈ unionCols ((accumulated items fetch).map DataFrame.cols) := by
      obtain ⟨d', hd'⟩ := List.exists_mem_of_ne_nil _ hemp
      exact mem_unionCols.mpr
        ⟨d'.cols, List.mem_map_of_mem _ hd', (hmemA d' hd').1⟩
    have hgidu : "game_id"
        ∉ unionCols ((accumulated items fetch).map DataFrame.cols) := by
      intro hmem
      rcases mem_unionCols.1 hmem with ⟨cs, hcs, hc⟩
      rcases List.mem_map.1 hcs with ⟨d', hd', rfl⟩
      exact (hmemA d' hd').2 hc
    have hGIDc : "GAME_ID" ∈ (concatDFs (accumulated items fetch)).cols :=
      hGIDu
    have hbranch : finalDf (accumulated items fetch)
        = renameCols (concatDFs (accumulated items fetch)) boxRenameMap := by
      rw [finalDf, if_pos hGIDc]
    rw [hbranch]
    show (flatMapL (fun d => d.rows.map (reindexRow
        (unionCols ((accumulated items fetch).map DataFrame.cols)) d.cols))
        (accumulated items fetch)).map
        (fun r => getCell ((unionCols ((accumulated items
          fetch).map DataFrame.cols)).map (renameOne boxRenameMap)) r "game_id")
      = flatMapL (fun g => expectedOutcome g (fetch g)) items
    rw [map_flatMapL]
    trans flatMapL (fun d' => d'.rows.map fun r => getCell d'.cols r "GAME_ID")
      (accumulated items fetch)
    · apply flatMapL_congr
      intro d' hd'
      rw [List.map_map]
      apply List.map_congr_left
      intro r _
      exact getCell_reindex_rename hgidu hGIDu
    · show flatMapL (fun d' => d'.rows.map fun r => getCell d'.cols r "GAME_ID")
          (items.filterMap fun g => processItem g (fetch g)) = _
      rw [flatMapL_filterMap]
      apply flatMapL_congr
      intro g hg
      cases hpg : processItem g (fetch g) with
      | none => simp [processItem_none_expected hpg]
      | some d' =>
        simp only [Option.map_some', Option.getD_some]
        exact processItem_gameId_vals hpg
          fun d rest ho => (hwf g hg d rest ho).1

/-! ## Claims -/

/-- Claim C1, counterexample: the claim reads "if AccumulatedDataset is
empty the sink write is never invoked", with AccumulatedDataset the
concatenation of the successful payloads' records.  A single WorkItem whose
fetch succeeds with a zero-row first result set yields an empty
AccumulatedDataset (zero records), yet `all_rows` is non-empty, so the
early-return guard does not fire and the sink write is invoked. -/
theorem c1_counterexample :
    accumulatedCount ["0022300001"] c1cFetch = 0 ∧
    runPipeline ["0022300001"] c1cFetch ≠ none ∧
    (runTrace ["0022300001"] c1cFetch).any isSinkWrite = true := by
  decide

/-- Claim C1 (amended): if no iteration appends a payload — every
WorkItem's fetch either raises or returns an empty result-set list, which
covers the empty WorkItem list and the K = N all-fail case — the sink
write is never invoked: the run emits the no-data diagnostic and returns
leaving the database untouched. -/
theorem c1_amended (items : List String) (fetch : String → FetchOutcome)
    (db : Database)
    (h : ∀ g ∈ items, fetch g = FetchOutcome.failure
      ∨ fetch g = FetchOutcome.success []) :
    runPipeline items fetch = none ∧
    runWithSink db items fetch = db ∧
    Event.printNoData ∈ runTrace items fetch ∧
    ∀ df, Event.sinkWrite df ∉ runTrace items fetch := by
  have hacc : accumulated items fetch = [] := by
    apply List.filterMap_eq_nil_iff.2
    intro g hg
    exact processItem_eq_none_iff.2 (h g hg)
  have hrp : runPipeline items fetch = none := runPipeline_eq_none_iff.2 hacc
  refine ⟨hrp, ?_, ?_, ?_⟩
  · rw [runWithSink, hrp]
  · rw [runTrace, hrp]
    exact List.mem_append.2 (Or.inr (List.mem_cons_self _ _))
  · intro df hmem
    rw [runTrace, hrp] at hmem
    rcases List.mem_append.1 hmem with hm | hm
    · rcases mem_flatMapL.1 hm with ⟨g, hg, hin⟩
      exact sinkWrite_not_mem_iterEvents g (fetch g) df hin
    · simp at hm

/-- Witness for C1 (amended) at a one-item list whose fetch raises. -/
theorem c1_amended_witness :
    runPipeline ["0022300001"] c1wFetch = none ∧
    Event.printNoData ∈ runTrace ["0022300001"] c1wFetch := by
  have h := c1_amended ["0022300001"] c1wFetch [] (fun g _ => Or.inl rfl)
  exact ⟨h.1, h.2.2.1⟩

/-- Claim C2: for every WorkItem list and every fetch behavior (any number
of per-item failures), the run completes — the model is a total function —
and the accumulated record count equals the sum over the WorkItems of the
row count of each successful fetch's first result set; the written dataset,
when the write happens, carries exactly that many records. -/
theorem c2_record_count (items : List String)
    (fetch : String → FetchOutcome) :
    accumulatedCount items fetch
      = (items.map fun g => firstRowCount (fetch g)).sum ∧
    recordCount (runPipeline items fetch) = accumulatedCount items fetch := by
  refine ⟨accumulatedCount_eq items fetch, ?_⟩
  by_cases h : (accumulated items fetch).isEmpty
  · rw [runPipeline, if_pos h, recordCount]
    rw [accumulatedCount, List.isEmpty_iff.mp h]
    rfl
  · rw [runPipeline, if_neg h]
    show (finalDf (accumulated items fetch)).rows.length = _
    rw [finalDf_rows, concatDFs_rows_length]
    rfl

/-- Claim C3, counterexample: a payload that carries `GAME_ID` with a null
value flows through unchanged, so the written dataset holds a record whose
normalized join key `game_id` is null — refuting "every record carries a
non-null normalized join key". -/
theorem c3_counterexample :
    recordCount (runPipeline ["0022300001"] c3cFetch) = 1 ∧
    gameIdValues (runPipeline ["0022300001"] c3cFetch) = [Val.null] := by
  decide

/-- Claim C3 (amended): every written dataset carries the normalized
`game_id` column; when no source payload includes the source-named
`GAME_ID` column, every written record's `game_id` is its WorkItem's
identifier — a non-null string.  (Payloads that do include `GAME_ID` keep
their original values, which may be null; see the counterexample.) -/
theorem c3_amended (items : List String) (fetch : String → FetchOutcome)
    (hwf : ∀ g ∈ items, ∀ d rest,
      fetch g = FetchOutcome.success (d :: rest) →
        WF d ∧ "game_id" ∉ d.cols ∧ "GAME_ID" ∉ d.cols) :
    ∀ full, runPipeline items fetch = some full →
      "game_id" ∈ full.cols ∧
      ∀ v ∈ gameIdValues (some full),
        (∃ g ∈ items, v = Val.str g) ∧ v ≠ Val.null := by
  intro full hfull
  refine ⟨runPipeline_mem_gameId hfull, ?_⟩
  have hchar := gameId_column_char items fetch fun g hg d rest ho =>
    ⟨(hwf g hg d rest ho).1, (hwf g hg d rest ho).2.1⟩
  rw [hfull] at hchar
  intro v hv
  rw [hchar] at hv
  rcases mem_flatMapL.1 hv with ⟨g, hg, hvin⟩
  cases ho : fetch g with
  | failure =>
    rw [ho] at hvin
    simp [expectedOutcome] at hvin
  | success dfs =>
    cases dfs with
    | nil =>
      rw [ho] at hvin
      simp [expectedOutcome] at hvin
    | cons d rest =>
      rw [ho] at hvin
      have hng : "GAME_ID" ∉ d.cols := (hwf g hg d rest ho).2.2
      rw [expectedOutcome, if_neg hng] at hvin
      rcases List.mem_map.1 hvin with ⟨r, hr, rfl⟩
      exact ⟨⟨g, hg, rfl⟩, fun hc => Val.noConfusion hc⟩

/-- Witness for C3 (amended): one WorkItem whose payload lacks `GAME_ID`;
the written dataset carries the `game_id` column. -/
theorem c3_amended_witness :
    "game_id" ∈ (finalDf (accumulated ["0022300099"] c3wFetch)).cols := by
  have h := c3_amended ["0022300099"] c3wFetch
    (by
      intro g hg d rest ho
      injection ho with h1
      injection h1 with h2 h3
      subst h2
      refine ⟨?_, by decide, by decide⟩
      intro r hr
      rcases List.mem_singleton.1 hr with rfl
      rfl)
    (finalDf (accumulated ["0022300099"] c3wFetch)) rfl
  exact h.1

/-- Claim C4: every sink write in the three scripts uses replace
semantics, so after a successful run the destination table holds exactly
the written dataset, whatever the database held before — full replace, not
append or merge. -/
theorem c4_full_replace :
    (∀ (db : Database) (items : List String)
        (fetch : String → FetchOutcome) (full : DataFrame),
        runPipeline items fetch = some full →
        getTable (runWithSink db items fetch) RAW_BOXSCORES_TABLE
          = some full) ∧
    (∀ (db : Database) (df : DataFrame),
        getTable (gamesMain db df) GAMES_TABLE = some (transformGames df)) ∧
    (∀ (db : Database) (df : DataFrame),
        getTable (playerLogsMain db df) PLAYER_LOGS_TABLE
          = some (transformPlayerLogs df)) := by
  refine ⟨?_, ?_, ?_⟩
  · intro db items fetch full h
    rw [runWithSink, h]
    exact getTable_setTable db RAW_BOXSCORES_TABLE full
  · intro db df
    exact getTable_setTable db GAMES_TABLE (transformGames df)
  · intro db df
    exact getTable_setTable db PLAYER_LOGS_TABLE (transformPlayerLogs df)

/-- Witness for C4 at a one-item run over a database that already holds
unrelated contents for the destination table. -/
theorem c4_full_replace_witness :
    getTable (runWithSink [(RAW_BOXSCORES_TABLE, ⟨["old"], [[Val.int 0]]⟩)]
        ["0022300001"] c4wFetch) RAW_BOXSCORES_TABLE
      = some (finalDf (accumulated ["0022300001"] c4wFetch)) :=
  c4_full_replace.1 [(RAW_BOXSCORES_TABLE, ⟨["old"], [[Val.int 0]]⟩)]
    ["0022300001"] c4wFetch _ rfl

/-- Claim C5, counterexample: `ingest_player_game_logs.py` is season-scoped
(its fetch is parameterized by the season constant) but its Transformer is
the bare rename — the written dataset has a record yet no `season` column,
so no record is stamped with the season label. -/
theorem c5_counterexample :
    (transformPlayerLogs c5cDf).rows.length = 1 ∧
    "season" ∉ (transformPlayerLogs c5cDf).cols := by
  decide

/-- Claim C5 (amended): the games pipeline's Transformer stamps every
record of the written dataset with the constant season label before the
sink write; the player-game-logs pipeline performs no such stamping. -/
theorem c5_amended (df : DataFrame) (db : Database) (h : WF df) :
    (∀ r ∈ (transformGames df).rows,
        getCell (transformGames df).cols r "season" = Val.str SEASON) ∧
    getTable (gamesMain db df) GAMES_TABLE = some (transformGames df) := by
  refine ⟨?_, getTable_setTable db GAMES_TABLE (transformGames df)⟩
  exact getCell_setCol (WF_renameCols h gamesRenameMap) "season"
    (Val.str SEASON)

/-- Witness for C5 (amended) at a concrete well-formed payload. -/
theorem c5_amended_witness :
    getCell (transformGames c5wDf).cols
      [Val.str "0022300001", Val.str "2023-10-24", Val.str "2023-24"]
      "season" = Val.str SEASON := by
  have h := c5_amended c5wDf []
    (by
      intro r hr
      rcases List.mem_singleton.1 hr with rfl
      rfl)
  exact h.1 _ (by decide)

/-- Claim C6, counterexample: a run over one WorkItem whose fetch raises
contains no sleep event at all — the `continue` in the handler skips
`time.sleep(0.6)`, so the delay is not executed after a failed iteration. -/
theorem c6_counterexample :
    Event.sleep ∉ runTrace ["0022300001"] c6cFetch := by
  decide

/-- Claim C6 (amended): the fixed delay executes exactly after the
iterations whose fetch succeeded with at least one result set; an
iteration that raises, or that returns an empty result-set list, reaches
`continue` first and skips the delay. -/
theorem c6_amended (g : String) (o : FetchOutcome) :
    Event.sleep ∈ iterEvents g o
      ↔ ∃ d rest, o = FetchOutcome.success (d :: rest) := by
  cases o with
  | failure => simp [iterEvents]
  | success dfs =>
    cases dfs with
    | nil => simp [iterEvents]
    | cons d rest =>
      constructor
      · intro _
        exact ⟨d, rest, rfl⟩
      · intro _
        simp [iterEvents]

/-- Claim C7: the WorkItem list is loaded once as the deduplicated,
ascending-sorted identifiers of the upstream table; the run issues exactly
one fetch per WorkItem in that order; and the written dataset's records are
the concatenation, in that same order, of the successful items' payload
rows (each reindexed to the common column set). -/
theorem c7_order (upstream : List String) (fetch : String → FetchOutcome) :
    (List.Sorted (fun a b => a ≤ b) (loadGameIds upstream) ∧
     (loadGameIds upstream).Nodup ∧
     ∀ g, g ∈ loadGameIds upstream ↔ g ∈ upstream) ∧
    fetchCalls (runTrace (loadGameIds upstream) fetch)
      = loadGameIds upstream ∧
    ∀ full, runPipeline (loadGameIds upstream) fetch = some full →
      full.rows = flatMapL
        (fun g => ((processItem g (fetch g)).map fun d =>
          d.rows.map (reindexRow
            (unionCols ((accumulated (loadGameIds upstream)
              fetch).map DataFrame.cols)) d.cols)).getD [])
        (loadGameIds upstream) := by
  haveI htot : IsTotal String (fun a b => strLE a b = true) :=
    ⟨fun a b => by
      rw [strLE_iff, strLE_iff]
      exact le_total a b⟩
  haveI htrans : IsTrans String (fun a b => strLE a b = true) :=
    ⟨fun a b c hab hbc => by
      rw [strLE_iff] at *
      exact le_trans hab hbc⟩
  refine ⟨⟨?_, ?_, ?_⟩, ?_, ?_⟩
  · exact List.Pairwise.imp (fun h => (strLE_iff _ _).1 h)
      (List.sorted_insertionSort (fun a b => strLE a b = true) upstream.dedup)
  · exact ((List.perm_insertionSort _ _).nodup_iff).2
      (List.nodup_dedup upstream)
  · intro g
    rw [loadGameIds, (List.perm_insertionSort _ _).mem_iff, List.mem_dedup]
  · rw [runTrace, fetchCalls_append, fetchCalls_flatMap]
    cases runPipeline (loadGameIds upstream) fetch <;> simp [fetchCalls]
  · intro full h
    obtain ⟨rfl, _⟩ := runPipeline_eq_some h
    rw [finalDf_rows]
    show flatMapL (fun d => d.rows.map (reindexRow
        (unionCols ((accumulated (loadGameIds upstream)
          fetch).map DataFrame.cols)) d.cols))
        ((loadGameIds upstream).filterMap fun g => processItem g (fetch g))
      = _
    rw [flatMapL_filterMap]

/-- Witness for C7 at a duplicated, unsorted upstream list. -/
theorem c7_order_witness :
    (finalDf (accumulated (loadGameIds c7wUpstream) c7wFetch)).rows
      = flatMapL
        (fun g => ((processItem g (c7wFetch g)).map fun d =>
          d.rows.map (reindexRow
            (unionCols ((accumulated (loadGameIds c7wUpstream)
              c7wFetch).map DataFrame.cols)) d.cols)).getD [])
        (loadGameIds c7wUpstream) :=
  (c7_order c7wUpstream c7wFetch).2.2 _ (by decide)

/-- Claim C8: the Transformer renames are pure total functions — they
preserve the record list and the column count of every DataFrame — and
applying the same mapping twice equals applying it once.  Both scripts'
mappings have target names that never occur as mapping keys (no collision
of renamed targets with remaining source names), which is what the
idempotence argument consumes. -/
theorem c8_rename_total_idem :
    (∀ df : DataFrame,
        (renameCols df gamesRenameMap).rows = df.rows ∧
        (renameCols df playerLogsRenameMap).rows = df.rows ∧
        (renameCols df gamesRenameMap).cols.length = df.cols.length ∧
        (renameCols df playerLogsRenameMap).cols.length = df.cols.length) ∧
    (∀ df : DataFrame,
        renameCols (renameCols df gamesRenameMap) gamesRenameMap
          = renameCols df gamesRenameMap) ∧
    (∀ df : DataFrame,
        renameCols (renameCols df playerLogsRenameMap) playerLogsRenameMap
          = renameCols df playerLogsRenameMap) := by
  refine ⟨fun df => ⟨rfl, rfl, by simp [renameCols], by simp [renameCols]⟩,
    fun df => renameCols_idem (by decide) df,
    fun df => renameCols_idem (by decide) df⟩

/-- Claim C9: frame effect of the join-key normalization, through the whole
run: a payload that already carries `GAME_ID` keeps its values — nulls and
values differing from the WorkItem identifier included — in the written
`game_id` column, and the WorkItem identifier is attached only to the rows
of payloads lacking the column (hypotheses: payloads are rectangular and
carry no pre-existing lowercase `game_id` column). -/
theorem c9_frame (items : List String) (fetch : String → FetchOutcome)
    (hwf : ∀ g ∈ items, ∀ d rest,
      fetch g = FetchOutcome.success (d :: rest) →
        WF d ∧ "game_id" ∉ d.cols) :
    gameIdValues (runPipeline items fetch)
      = flatMapL (fun g => expectedOutcome g (fetch g)) items :=
  gameId_column_char items fetch hwf

/-- Witness for C9: first payload carries `GAME_ID` with a null value
(preserved), second lacks the column (the identifier is attached). -/
theorem c9_frame_witness :
    gameIdValues (runPipeline c9wItems c9wFetch)
      = [Val.null, Val.str "0022300002"] := by
  refine Eq.trans (c9_frame c9wItems c9wFetch ?_) (by decide)
  intro g hg d rest ho
  rcases List.mem_cons.1 hg with rfl | hg'
  · have hcf : c9wFetch "0022300001" = FetchOutcome.success
        [⟨["GAME_ID", "PTS"], [[Val.null, Val.int 3]]⟩] := rfl
    rw [hcf] at ho
    injection ho with h1
    injection h1 with h2 h3
    subst h2
    refine ⟨?_, by decide⟩
    intro r hr
    rcases List.mem_singleton.1 hr with rfl
    rfl
  · rcases List.mem_cons.1 hg' with rfl | hg''
    · have hcf : c9wFetch "0022300002" = FetchOutcome.success
          [⟨["PTS"], [[Val.int 7]]⟩] := rfl
      rw [hcf] at ho
      injection ho with h1
      injection h1 with h2 h3
      subst h2
      refine ⟨?_, by decide⟩
      intro r hr
      rcases List.mem_singleton.1 hr with rfl
      rfl
    · cases hg''

/-- Claim C10: a fetch that succeeds but returns no result sets is skipped
without raising and without the error log line (only the warning line is
printed): it contributes zero records to the accumulator, and the rest of
the run proceeds exactly as if the WorkItem were absent. -/
theorem c10_empty_dfs (g : String) (xs ys : List String)
    (fetch : String → FetchOutcome)
    (h : fetch g = FetchOutcome.success []) :
    processItem g (fetch g) = none ∧
    iterEvents g (fetch g) = [Event.fetchCall g, Event.warnLog g] ∧
    (∀ gid, Event.errorLog gid ∉ iterEvents g (fetch g)) ∧
    accumulated (xs ++ g :: ys) fetch = accumulated (xs ++ ys) fetch ∧
    runPipeline (xs ++ g :: ys) fetch = runPipeline (xs ++ ys) fetch := by
  have hp : processItem g (fetch g) = none := by rw [h]; rfl
  have hacc : accumulated (xs ++ g :: ys) fetch
      = accumulated (xs ++ ys) fetch := by
    simp only [accumulated, List.filterMap_append, List.filterMap_cons, hp]
  refine ⟨hp, by rw [h]; rfl, ?_, hacc, ?_⟩
  · intro gid
    rw [h]
    simp [iterEvents]
  · simp only [runPipeline, hacc]

/-- Witness for C10 at a three-item list whose middle fetch returns no
result sets. -/
theorem c10_empty_dfs_witness :
    processItem "empty" (c10wFetch "empty") = none ∧
    accumulated (["0022300001"] ++ "empty" :: ["0022300002"]) c10wFetch
      = accumulated (["0022300001"] ++ ["0022300002"]) c10wFetch := by
  have h := c10_empty_dfs "empty" ["0022300001"] ["0022300002"]
    c10wFetch rfl
  exact ⟨h.1, h.2.2.2.1⟩

end NbaIngest
